import Mathlib

/-! SwiftShader: instruction-set selector, data lowering, GUID ordering, device flags

A shallow embedding of the declarations in

* `src/IceTargetLoweringX8632.h` (Subzero x86-32 lowering interface),
* `src/D3D8/Direct3DResource8.hpp` (private-data map keyed by GUID),
* `src/Vulkan/libVulkan/Device.hpp` (viewport record and buffer flags),

followed by the properties proved about them.  Enumerators are embedded as
their integer values, bytes as `Fin 256`, and member functions as pure
functions on explicit state.
-/

/-! ## `Ice::TargetX8632::X86InstructionSet` -/

namespace Ice
namespace TargetX8632

/-- Enumerator `Begin` of `enum X86InstructionSet`: the first enumerator has
value zero. -/
def Begin : Int := 0

/-- Enumerator `SSE2 = Begin` (the PNaCl baseline instruction set). -/
def SSE2 : Int := Begin

/-- Enumerator `SSE4_1`: no initializer, so one more than its predecessor. -/
def SSE4_1 : Int := SSE2 + 1

/-- Enumerator `End`: no initializer, so one more than its predecessor. -/
def End : Int := SSE4_1 + 1

end TargetX8632
end Ice

/-! ## `vulkan::Viewport` and the `vulkan::SwDevice` buffer flags -/

namespace vulkan

/-- A C `float`, carried by its IEEE-754 binary32 bit pattern.  The code
only stores and copies such values. -/
structure float where
  bits : Fin 4294967296
deriving DecidableEq, Repr

/-- The `float` obtained from the integer literal `0` in a member
initializer such as `minZ(0)`: positive zero, all bits clear. -/
def float.ofZero : float := ⟨0⟩

/-- The record `struct Viewport` with its six fields in declaration order:
`int x0, y0; unsigned int width, height; float minZ, maxZ`. -/
structure Viewport where
  x0 : Int
  y0 : Int
  width : Nat
  height : Nat
  minZ : float
  maxZ : float
deriving DecidableEq, Repr

/-- The default constructor
`Viewport() : x0(0), y0(0), width(0), height(0), minZ(0), maxZ(0) {}`. -/
def Viewport.Viewport0 : Viewport :=
  { x0 := 0, y0 := 0, width := 0, height := 0,
    minZ := float.ofZero, maxZ := float.ofZero }

/-- The six-argument constructor
`Viewport(xi, yi, width_, height_, minZ_, maxZ_) :
   x0(xi), y0(yi), width(width_), height(height_), minZ(minZ_), maxZ(maxZ_) {}`. -/
def Viewport.Viewport6 (xi yi : Int) (width_ height_ : Nat) (minZ_ maxZ_ : float) :
    Viewport :=
  { x0 := xi, y0 := yi, width := width_, height := height_,
    minZ := minZ_, maxZ := maxZ_ }

namespace SwDevice

/-- Enumerator `USE_FILTER = 0x01` of the anonymous `enum : unsigned char`. -/
def USE_FILTER : Nat := 0x01

/-- Enumerator `COLOR_BUFFER = 0x02`. -/
def COLOR_BUFFER : Nat := 0x02

/-- Enumerator `DEPTH_BUFFER = 0x04`. -/
def DEPTH_BUFFER : Nat := 0x04

/-- Enumerator `STENCIL_BUFFER = 0x08`. -/
def STENCIL_BUFFER : Nat := 0x08

/-- Enumerator `ALL_BUFFERS = COLOR_BUFFER | DEPTH_BUFFER | STENCIL_BUFFER`. -/
def ALL_BUFFERS : Nat := COLOR_BUFFER ||| DEPTH_BUFFER ||| STENCIL_BUFFER

end SwDevice
end vulkan

/-! ## `D3D8::Direct3DResource8::CompareGUID` and `PrivateDataMap` -/

namespace D3D8

/-- One byte of an object representation, read as `unsigned char`. -/
abbrev Byte := Fin 256

/-- The value of `sizeof(GUID)`: the platform header `<d3d8.h>` declares a
GUID as a 32-bit field, two 16-bit fields and eight bytes, 16 bytes in all. -/
def sizeofGUID : Nat := 16

/-- A `GUID`, carried by the object representation that `memcmp` reads
through `&left` and `&right`: exactly `sizeof(GUID)` bytes. -/
structure GUID where
  bytes : List Byte
  size : bytes.length = sizeofGUID
deriving DecidableEq, Repr

/-- The C library function `memcmp(s1, s2, n)` on the bytes found at the
two addresses: the first `n` bytes are compared in order as `unsigned char`
and the result has the sign of the difference at the first mismatch; it is
zero when all `n` bytes agree. -/
def memcmp : List Byte → List Byte → Nat → Int
  | a :: as, b :: bs, n + 1 =>
    if a = b then memcmp as bs n else (a.val : Int) - (b.val : Int)
  | _, _, _ => 0

/-- The comparison object
`bool CompareGUID::operator()(const GUID& left, const GUID& right) const
 { return memcmp(&left, &right, sizeof(GUID)) < 0; }`. -/
def CompareGUID (left right : GUID) : Bool :=
  decide (memcmp left.bytes right.bytes sizeofGUID < 0)

/-- Key equivalence of `std::map<GUID, PrivateData, CompareGUID>`: an ordered
map treats two keys as the same key when neither is ordered before the
other by its comparison object. -/
def PrivateDataMap.equivalentKeys (a b : GUID) : Bool :=
  !CompareGUID a b && !CompareGUID b a

end D3D8

/-! ## `Ice::TargetDataX8632`: constant pool and global data sections -/

namespace Ice

/-- Modelled from the spec: the Constant Pool Entry of the data model, whose
declaration is not part of `IceTargetLoweringX8632.h`.  It is a literal
identified by its exact bit pattern and its size in bytes. -/
structure ConstantPoolEntry where
  bits : Nat
  size : Nat
deriving DecidableEq, Repr

/-- Modelled from the spec: the constant pool held by the Compilation
Context (the `GlobalContext` that the header only names), as the list of its
entries in order of creation. -/
abbrev ConstantPool := List ConstantPoolEntry

/-- Modelled from the spec: a constant-pool request recorded during
lowering; the body is missing from the sources.  An entry is created lazily
on first use, one entry per unique (value, size) pair: a literal already in
the pool is reused, any other literal gets a new entry. -/
def ConstantPool.request (pool : ConstantPool) (lit : ConstantPoolEntry) : ConstantPool :=
  if lit ∈ pool then pool else pool ++ [lit]

/-- Modelled from the spec: the pool once every function has requested all
its literals, starting from the empty pool of a fresh compilation unit. -/
def ConstantPool.ofRequests (requests : List ConstantPoolEntry) : ConstantPool :=
  requests.foldl ConstantPool.request []

/-- Modelled from the spec: the Global Declaration of the data model (the
`VariableDeclaration` type is only named by the header): a named, optionally
initialized block of data with a size, an alignment and a mutability flag. -/
structure VariableDeclaration where
  name : String
  contents : Option (List (Fin 256))
  size : Nat
  alignment : Nat
  readOnly : Bool
deriving DecidableEq, Repr

/-- The parameter type `VariableDeclarationList` of `lowerGlobals`: the
declarations of the compilation unit in declaration order. -/
abbrev VariableDeclarationList := List VariableDeclaration

/-- Modelled from the spec: the two data sections of the assembled object
that receive global declarations, the read-only one and the read-write one. -/
structure DataSections where
  rodata : List VariableDeclaration
  data : List VariableDeclaration
deriving DecidableEq, Repr

namespace TargetDataX8632

/-- Modelled from the spec: `TargetDataX8632::emitConstantPool`, declared in
the header with its body missing.  It emits the pool entries of one size
group, in pool order. -/
def emitConstantPool (size : Nat) (pool : ConstantPool) : List ConstantPoolEntry :=
  pool.filter (fun e => e.size == size)

/-- Modelled from the spec: `TargetDataX8632::lowerConstants`, declared in
the header with its body missing.  It emits the constant-pool entries
grouped by size, one group for each size present in the pool. -/
def lowerConstants (pool : ConstantPool) : List ConstantPoolEntry :=
  ((pool.map (fun e => e.size)).dedup).flatMap (fun s => emitConstantPool s pool)

/-- Modelled from the spec: the emission of one global declaration by
`lowerGlobals` (body missing from the sources): the declaration is appended
to the read-only or to the read-write section according to its mutability
flag. -/
def emitGlobal (out : DataSections) (Var : VariableDeclaration) : DataSections :=
  if Var.readOnly then { out with rodata := out.rodata ++ [Var] }
  else { out with data := out.data ++ [Var] }

/-- Modelled from the spec: `TargetDataX8632::lowerGlobals(Vars, SectionSuffix)`,
declared in the header with its body missing.  It walks the declaration list
in order and emits every declaration into its section; the spec gives the
section suffix no influence on which section a declaration goes to. -/
def lowerGlobals (Vars : VariableDeclarationList) (_SectionSuffix : String) :
    DataSections :=
  Vars.foldl emitGlobal { rodata := [], data := [] }

end TargetDataX8632
end Ice

/-! ## Concrete inputs used to evaluate the definitions -/

namespace D3D8

/-- A GUID whose bytes are `00 01 02 ... 0f`. -/
def guidA : GUID := ⟨[0, 1, 2, 3, 4, 5, 6, 7, 8, 9, 10, 11, 12, 13, 14, 15], rfl⟩

/-- A GUID that differs from `guidA` in its last byte only (`0x80`, which a
signed byte comparison would order first). -/
def guidB : GUID := ⟨[0, 1, 2, 3, 4, 5, 6, 7, 8, 9, 10, 11, 12, 13, 14, 128], rfl⟩

/-- A GUID that differs from `guidA` in its first byte. -/
def guidC : GUID := ⟨[1, 0, 0, 0, 0, 0, 0, 0, 0, 0, 0, 0, 0, 0, 0, 0], rfl⟩

end D3D8

namespace Ice

/-- The literal `1.0f` (four bytes) requested twice, with a literal of the
same bit pattern but eight bytes wide in between. -/
def sampleRequests : List ConstantPoolEntry :=
  [⟨0x3f800000, 4⟩, ⟨0x3f800000, 8⟩, ⟨0x3f800000, 4⟩]

/-- A section-name suffix as a caller of `lowerGlobals` passes it. -/
def sampleSuffix : String := ".part0"

/-- A read-only table, a read-write counter and a second read-only table. -/
def sampleGlobals : VariableDeclarationList :=
  [⟨"table", some [1, 2], 2, 1, true⟩, ⟨"counter", none, 4, 4, false⟩,
   ⟨"masks", some [255], 1, 1, true⟩]

end Ice

/-! ## Theorems -/

/-- C1: the selector `X86InstructionSet` recognises exactly two values: every
`v` with `Begin ≤ v < End` is `SSE2` or `SSE4_1`, the two are distinct, and
`End - Begin = 2`. -/
theorem Ice.TargetX8632.instructionSet_exactly_two :
    (∀ v : Int, Begin ≤ v → v < End → v = SSE2 ∨ v = SSE4_1) ∧
    SSE2 ≠ SSE4_1 ∧ End - Begin = 2 := by
  refine ⟨?_, ?_, ?_⟩
  · intro v h1 h2
    simp only [Begin, End, SSE4_1, SSE2] at *
    omega
  · decide
  · decide

/-- Witness for C1: the value `1` lies in `[Begin, End)` and is recognised. -/
theorem Ice.TargetX8632.instructionSet_exactly_two_witness :
    (1 : Int) = Ice.TargetX8632.SSE2 ∨ (1 : Int) = Ice.TargetX8632.SSE4_1 :=
  Ice.TargetX8632.instructionSet_exactly_two.1 1 (by decide) (by decide)

/-- C4: `SSE2` is the baseline: it equals `Begin`, it is below every
recognised variant, `SSE2 < SSE4_1 < End`, and the capability test
`v ≥ SSE4_1` holds for `SSE4_1` and fails for `SSE2`. -/
theorem Ice.TargetX8632.sse2_is_baseline :
    SSE2 = Begin ∧
    (∀ v : Int, Begin ≤ v → v < End → SSE2 ≤ v) ∧
    SSE2 < SSE4_1 ∧ SSE4_1 < End ∧
    SSE4_1 ≥ SSE4_1 ∧ ¬ (SSE2 ≥ SSE4_1) := by
  refine ⟨rfl, ?_, by decide, by decide, by decide, by decide⟩
  intro v h1 _
  exact h1

/-- Witness for C4: the recognised value `1` is at least `SSE2`. -/
theorem Ice.TargetX8632.sse2_is_baseline_witness :
    Ice.TargetX8632.SSE2 ≤ (1 : Int) :=
  Ice.TargetX8632.sse2_is_baseline.2.1 1 (by decide) (by decide)

/-- Masking with `0x0E` only looks at the low four bits of the flags. -/
theorem vulkan.SwDevice.and_low_nibble (f m : Nat) (hm : m &&& 15 = m) :
    f &&& m = (f % 16) &&& m := by
  have h : f % 16 = f &&& 15 := by
    have := Nat.and_pow_two_sub_one_eq_mod f 4
    simpa using this.symm
  rw [h, Nat.land_assoc, Nat.land_comm 15 m, hm]

/-- C6: the buffer flags are four distinct single bits of an `unsigned char`,
`ALL_BUFFERS` is the union `0x0E` of the three buffer bits and excludes
`USE_FILTER`, and a flags value `f` satisfies `(f & ALL_BUFFERS) == ALL_BUFFERS`
exactly when it contains each of the three buffer bits. -/
theorem vulkan.SwDevice.buffer_flags_disjoint :
    (USE_FILTER = 2 ^ 0 ∧ COLOR_BUFFER = 2 ^ 1 ∧ DEPTH_BUFFER = 2 ^ 2 ∧
      STENCIL_BUFFER = 2 ^ 3) ∧
    (USE_FILTER < 256 ∧ COLOR_BUFFER < 256 ∧ DEPTH_BUFFER < 256 ∧
      STENCIL_BUFFER < 256 ∧ ALL_BUFFERS < 256) ∧
    (USE_FILTER &&& COLOR_BUFFER = 0 ∧ USE_FILTER &&& DEPTH_BUFFER = 0 ∧
      USE_FILTER &&& STENCIL_BUFFER = 0 ∧ COLOR_BUFFER &&& DEPTH_BUFFER = 0 ∧
      COLOR_BUFFER &&& STENCIL_BUFFER = 0 ∧ DEPTH_BUFFER &&& STENCIL_BUFFER = 0) ∧
    ALL_BUFFERS = COLOR_BUFFER ||| DEPTH_BUFFER ||| STENCIL_BUFFER ∧
    ALL_BUFFERS = 0x0E ∧
    ALL_BUFFERS &&& USE_FILTER = 0 ∧
    (∀ f : Nat, f &&& ALL_BUFFERS = ALL_BUFFERS ↔
      (f &&& COLOR_BUFFER = COLOR_BUFFER ∧ f &&& DEPTH_BUFFER = DEPTH_BUFFER ∧
        f &&& STENCIL_BUFFER = STENCIL_BUFFER)) := by
  refine ⟨by decide, by decide, by decide, rfl, by decide, by decide, ?_⟩
  intro f
  have e14 : ALL_BUFFERS = 14 := by decide
  have e2 : COLOR_BUFFER = 2 := rfl
  have e4 : DEPTH_BUFFER = 4 := rfl
  have e8 : STENCIL_BUFFER = 8 := rfl
  rw [e14, e2, e4, e8,
    vulkan.SwDevice.and_low_nibble f 14 (by decide),
    vulkan.SwDevice.and_low_nibble f 2 (by decide),
    vulkan.SwDevice.and_low_nibble f 4 (by decide),
    vulkan.SwDevice.and_low_nibble f 8 (by decide)]
  have hlt : f % 16 < 16 := Nat.mod_lt _ (by decide)
  generalize f % 16 = r at hlt
  interval_cases r <;> decide

/-- C7: the default constructor yields a viewport whose six fields are all
zero (for the two floats: the bit pattern of positive zero, all bits clear),
the six-argument constructor stores each argument unchanged in the field of
the same position, and `Viewport()` equals `Viewport(0, 0, 0, 0, 0, 0)`,
the last two arguments being the float with all bits clear. -/
theorem vulkan.Viewport.construction :
    (Viewport.Viewport0.x0 = 0 ∧ Viewport.Viewport0.y0 = 0 ∧
      Viewport.Viewport0.width = 0 ∧ Viewport.Viewport0.height = 0 ∧
      Viewport.Viewport0.minZ.bits = 0 ∧ Viewport.Viewport0.maxZ.bits = 0 ∧
      Viewport.Viewport0.minZ = ⟨0⟩ ∧ Viewport.Viewport0.maxZ = ⟨0⟩) ∧
    (∀ (xi yi : Int) (width_ height_ : Nat) (minZ_ maxZ_ : float),
      (Viewport.Viewport6 xi yi width_ height_ minZ_ maxZ_).x0 = xi ∧
      (Viewport.Viewport6 xi yi width_ height_ minZ_ maxZ_).y0 = yi ∧
      (Viewport.Viewport6 xi yi width_ height_ minZ_ maxZ_).width = width_ ∧
      (Viewport.Viewport6 xi yi width_ height_ minZ_ maxZ_).height = height_ ∧
      (Viewport.Viewport6 xi yi width_ height_ minZ_ maxZ_).minZ = minZ_ ∧
      (Viewport.Viewport6 xi yi width_ height_ minZ_ maxZ_).maxZ = maxZ_) ∧
    Viewport.Viewport0 = Viewport.Viewport6 0 0 0 0 ⟨0⟩ ⟨0⟩ ∧
    Viewport.Viewport0 =
      { x0 := 0, y0 := 0, width := 0, height := 0, minZ := ⟨0⟩, maxZ := ⟨0⟩ } := by
  refine ⟨⟨rfl, rfl, rfl, rfl, rfl, rfl, rfl, rfl⟩, ?_, rfl, rfl⟩
  intro xi yi width_ height_ minZ_ maxZ_
  exact ⟨rfl, rfl, rfl, rfl, rfl, rfl⟩

/-! ### `CompareGUID` -/

/-- On two regions of `n` bytes, `memcmp` is negative exactly when the first
region precedes the second in the lexicographic order of unsigned bytes. -/
theorem D3D8.memcmp_neg_iff (n : Nat) :
    ∀ as bs : List Byte, as.length = n → bs.length = n →
      (memcmp as bs n < 0 ↔ List.Lex (· < ·) as bs) := by
  induction n with
  | zero =>
    intro as bs ha hb
    have h1 := List.length_eq_zero.mp ha
    have h2 := List.length_eq_zero.mp hb
    subst h1 h2
    constructor
    · intro h; simp [memcmp] at h
    · intro h; cases h
  | succ n ih =>
    intro as bs ha hb
    match as, bs, ha, hb with
    | a :: as, b :: bs, ha, hb =>
      simp only [List.length_cons, Nat.add_right_cancel_iff] at ha hb
      unfold memcmp
      by_cases h : a = b
      · subst h
        rw [if_pos rfl, ih as bs ha hb, List.Lex.cons_iff]
      · rw [if_neg h]
        constructor
        · intro hlt
          apply List.Lex.rel
          have : (a.val : Int) < (b.val : Int) := by omega
          exact_mod_cast this
        · intro hlex
          cases hlex with
          | cons _ => exact absurd rfl h
          | rel hab =>
            have : a.val < b.val := hab
            omega

/-- The comparison object holds exactly for lexicographically ordered
representations. -/
theorem D3D8.CompareGUID_iff_lex (l r : GUID) :
    CompareGUID l r = true ↔ List.Lex (· < ·) l.bytes r.bytes := by
  unfold CompareGUID
  rw [decide_eq_true_iff]
  exact D3D8.memcmp_neg_iff sizeofGUID l.bytes r.bytes l.size r.size

/-- Two GUIDs with the same bytes are the same GUID. -/
theorem D3D8.GUID.eq_of_bytes {a b : GUID} (h : a.bytes = b.bytes) : a = b := by
  cases a; cases b; cases h; rfl

/-- C5: `CompareGUID` is the lexicographic order of the 16 unsigned bytes of
its arguments; it is irreflexive and transitive, for any two GUIDs exactly
one of `compare(left, right)`, `compare(right, left)` and byte-for-byte
equality holds, and the map treats two GUIDs as the same key exactly when
they are byte-identical. -/
theorem D3D8.CompareGUID_strict_total_order :
    (∀ l r : GUID, CompareGUID l r = true ↔ List.Lex (· < ·) l.bytes r.bytes) ∧
    (∀ a : GUID, CompareGUID a a = false) ∧
    (∀ a b c : GUID, CompareGUID a b = true → CompareGUID b c = true →
      CompareGUID a c = true) ∧
    (∀ a b : GUID,
      (CompareGUID a b = true ∧ CompareGUID b a = false ∧ a.bytes ≠ b.bytes) ∨
      (CompareGUID a b = false ∧ CompareGUID b a = true ∧ a.bytes ≠ b.bytes) ∨
      (CompareGUID a b = false ∧ CompareGUID b a = false ∧ a.bytes = b.bytes)) ∧
    (∀ a b : GUID, PrivateDataMap.equivalentKeys a b = true ↔ a.bytes = b.bytes) ∧
    (∀ a b : GUID, PrivateDataMap.equivalentKeys a b = true ↔ a = b) := by
  have hirr : ∀ a : GUID, CompareGUID a a = false := by
    intro a
    rw [← Bool.not_eq_true, D3D8.CompareGUID_iff_lex]
    exact irrefl_of (List.Lex (· < ·)) a.bytes
  have hasym : ∀ a b : GUID, CompareGUID a b = true → CompareGUID b a = false := by
    intro a b h
    rw [← Bool.not_eq_true, D3D8.CompareGUID_iff_lex]
    exact asymm_of (List.Lex (· < ·)) ((D3D8.CompareGUID_iff_lex a b).mp h)
  have hne : ∀ a b : GUID, CompareGUID a b = true → a.bytes ≠ b.bytes := by
    intro a b h he
    have hab : a = b := D3D8.GUID.eq_of_bytes he
    subst hab
    rw [hirr a] at h
    exact Bool.false_ne_true h
  have htri : ∀ a b : GUID,
      (CompareGUID a b = true ∧ CompareGUID b a = false ∧ a.bytes ≠ b.bytes) ∨
      (CompareGUID a b = false ∧ CompareGUID b a = true ∧ a.bytes ≠ b.bytes) ∨
      (CompareGUID a b = false ∧ CompareGUID b a = false ∧ a.bytes = b.bytes) := by
    intro a b
    rcases trichotomous_of (List.Lex (fun x y : Byte => x < y)) a.bytes b.bytes with h | h | h
    · have hab := (D3D8.CompareGUID_iff_lex a b).mpr h
      exact Or.inl ⟨hab, hasym a b hab, hne a b hab⟩
    · have hab : a = b := D3D8.GUID.eq_of_bytes h
      subst hab
      exact Or.inr (Or.inr ⟨hirr a, hirr a, rfl⟩)
    · have hba := (D3D8.CompareGUID_iff_lex b a).mpr h
      exact Or.inr (Or.inl ⟨hasym b a hba, hba, fun he => hne b a hba he.symm⟩)
  have hkey : ∀ a b : GUID, PrivateDataMap.equivalentKeys a b = true ↔ a.bytes = b.bytes := by
    intro a b
    unfold PrivateDataMap.equivalentKeys
    rcases htri a b with ⟨h1, h2, h3⟩ | ⟨h1, h2, h3⟩ | ⟨h1, h2, h3⟩ <;> simp [h1, h2, h3]
  refine ⟨D3D8.CompareGUID_iff_lex, hirr, ?_, htri, hkey, ?_⟩
  · intro a b c hab hbc
    rw [D3D8.CompareGUID_iff_lex] at *
    exact trans_of (List.Lex (· < ·)) hab hbc
  · intro a b
    rw [hkey a b]
    exact ⟨D3D8.GUID.eq_of_bytes, fun h => by rw [h]⟩

/-- Witness for C5: transitivity applied to three concrete GUIDs, with
`guidA < guidB` decided on an unsigned last byte `0x0f < 0x80`. -/
theorem D3D8.CompareGUID_strict_total_order_witness :
    D3D8.CompareGUID D3D8.guidA D3D8.guidB = true ∧
    D3D8.CompareGUID D3D8.guidB D3D8.guidC = true ∧
    D3D8.CompareGUID D3D8.guidA D3D8.guidC = true :=
  ⟨by decide, by decide,
    D3D8.CompareGUID_strict_total_order.2.2.1 D3D8.guidA D3D8.guidB D3D8.guidC
      (by decide) (by decide)⟩

/-! ### Constant pool -/

/-- A request adds at most the requested literal to the pool. -/
theorem Ice.ConstantPool.mem_request (pool : ConstantPool) (lit e : ConstantPoolEntry) :
    e ∈ pool.request lit ↔ e ∈ pool ∨ e = lit := by
  unfold ConstantPool.request
  split
  · constructor
    · exact Or.inl
    · rintro (h | h)
      · exact h
      · subst h; assumption
  · simp

/-- A request keeps a duplicate-free pool duplicate-free. -/
theorem Ice.ConstantPool.nodup_request (pool : ConstantPool) (lit : ConstantPoolEntry)
    (h : pool.Nodup) : (pool.request lit).Nodup := by
  unfold ConstantPool.request
  split
  · exact h
  · rename_i hn
    rw [List.nodup_append]
    refine ⟨h, List.nodup_singleton _, ?_⟩
    intro a ha hb
    simp at hb
    subst hb
    exact hn ha

/-- Any run of requests keeps the pool duplicate-free and adds exactly the
requested literals. -/
theorem Ice.ConstantPool.foldl_request (requests : List ConstantPoolEntry) :
    ∀ pool : ConstantPool, pool.Nodup →
      (requests.foldl ConstantPool.request pool).Nodup ∧
      ∀ e, e ∈ requests.foldl ConstantPool.request pool ↔ e ∈ pool ∨ e ∈ requests := by
  induction requests with
  | nil => intro pool h; simp [h]
  | cons r rs ih =>
    intro pool h
    have hstep := ih (pool.request r) (Ice.ConstantPool.nodup_request pool r h)
    refine ⟨hstep.1, ?_⟩
    intro e
    rw [List.foldl_cons, hstep.2 e, Ice.ConstantPool.mem_request, List.mem_cons, or_assoc]

/-- Emission neither drops nor invents pool entries. -/
theorem Ice.TargetDataX8632.mem_lowerConstants (pool : ConstantPool)
    (e : ConstantPoolEntry) : e ∈ lowerConstants pool ↔ e ∈ pool := by
  unfold lowerConstants emitConstantPool
  simp only [List.mem_flatMap, List.mem_dedup, List.mem_map, List.mem_filter, beq_iff_eq]
  constructor
  · rintro ⟨s, _, h, _⟩; exact h
  · intro h; exact ⟨e.size, ⟨e, h, rfl⟩, h, rfl⟩

/-- Emission of a duplicate-free pool is duplicate-free: the size groups are
disjoint. -/
theorem Ice.TargetDataX8632.nodup_lowerConstants (pool : ConstantPool)
    (h : pool.Nodup) : (lowerConstants pool).Nodup := by
  unfold lowerConstants emitConstantPool
  rw [List.nodup_flatMap]
  refine ⟨fun s _ => h.filter _, ?_⟩
  refine (List.nodup_dedup _).imp ?_
  intro s t hst e he1 he2
  simp only [List.mem_filter, beq_iff_eq] at he1 he2
  exact hst (he1.2.symm.trans he2.2)

/-- C2: for every sequence of literal requests the emitted constant pool
holds exactly the requested literals, each (value, size) pair once however
often it was requested, so it has one entry per distinct pair; two literals
that differ only in size occupy two different entries. -/
theorem Ice.TargetDataX8632.constant_pool_deduplicated
    (requests : List ConstantPoolEntry) :
    (∀ e, e ∈ lowerConstants (ConstantPool.ofRequests requests) ↔ e ∈ requests) ∧
    (lowerConstants (ConstantPool.ofRequests requests)).Nodup ∧
    (∀ e, e ∈ requests →
      (lowerConstants (ConstantPool.ofRequests requests)).count e = 1) ∧
    (lowerConstants (ConstantPool.ofRequests requests)).length = requests.dedup.length ∧
    (∀ bits s₁ s₂ : Nat, s₁ ≠ s₂ →
      (⟨bits, s₁⟩ : ConstantPoolEntry) ∈ requests →
      (⟨bits, s₂⟩ : ConstantPoolEntry) ∈ requests →
      ∃ i j : Nat, i ≠ j ∧
        (lowerConstants (ConstantPool.ofRequests requests))[i]? = some ⟨bits, s₁⟩ ∧
        (lowerConstants (ConstantPool.ofRequests requests))[j]? = some ⟨bits, s₂⟩) := by
  have hpool := Ice.ConstantPool.foldl_request requests [] List.nodup_nil
  have hmem : ∀ e, e ∈ lowerConstants (ConstantPool.ofRequests requests) ↔
      e ∈ requests := by
    intro e
    rw [Ice.TargetDataX8632.mem_lowerConstants]
    unfold ConstantPool.ofRequests
    rw [hpool.2 e]
    simp
  have hnd := Ice.TargetDataX8632.nodup_lowerConstants (ConstantPool.ofRequests requests)
    hpool.1
  refine ⟨hmem, hnd, ?_, ?_, ?_⟩
  · intro e he
    exact List.count_eq_one_of_mem hnd ((hmem e).mpr he)
  · apply List.Perm.length_eq
    rw [List.perm_ext_iff_of_nodup hnd (List.nodup_dedup _)]
    intro e
    rw [hmem e, List.mem_dedup]
  · intro bits s₁ s₂ hne h₁ h₂
    obtain ⟨i, hi⟩ := List.getElem?_of_mem ((hmem _).mpr h₁)
    obtain ⟨j, hj⟩ := List.getElem?_of_mem ((hmem _).mpr h₂)
    refine ⟨i, j, ?_, hi, hj⟩
    intro hij
    subst hij
    rw [hi] at hj
    injection hj with hj
    injection hj with _ hs
    exact hne hs

/-- Witness for C2: `1.0f` requested twice at size 4, with an 8-byte literal
of the same bits in between, is emitted once, and the emitted pool has two
entries. -/
theorem Ice.TargetDataX8632.constant_pool_deduplicated_witness :
    (Ice.TargetDataX8632.lowerConstants
      (Ice.ConstantPool.ofRequests Ice.sampleRequests)).count ⟨0x3f800000, 4⟩ = 1 ∧
    Ice.TargetDataX8632.lowerConstants (Ice.ConstantPool.ofRequests Ice.sampleRequests) =
      [⟨0x3f800000, 4⟩, ⟨0x3f800000, 8⟩] :=
  ⟨(Ice.TargetDataX8632.constant_pool_deduplicated Ice.sampleRequests).2.2.1
      ⟨0x3f800000, 4⟩ (by decide), by decide⟩

/-! ### Global data sections -/

/-- The walk over the declaration list appends to each section the
declarations carrying its mutability flag, in list order. -/
theorem Ice.TargetDataX8632.foldl_emitGlobal (Vars : VariableDeclarationList) :
    ∀ out : DataSections,
      Vars.foldl emitGlobal out =
        { rodata := out.rodata ++ Vars.filter (fun d => d.readOnly),
          data := out.data ++ Vars.filter (fun d => !d.readOnly) } := by
  induction Vars with
  | nil => intro out; simp
  | cons v vs ih =>
    intro out
    rw [List.foldl_cons, ih]
    unfold emitGlobal
    cases hv : v.readOnly <;> simp [hv]

/-- C3: `lowerGlobals` splits the declaration list by mutability: the
read-only section is the sub-sequence of read-only declarations and the
read-write section the sub-sequence of the others, so every declaration is
in exactly the section its flag names, as often as in the input, and each
section keeps the relative order of the input. -/
theorem Ice.TargetDataX8632.lowerGlobals_splits_by_mutability
    (Vars : VariableDeclarationList) (SectionSuffix : String) :
    (lowerGlobals Vars SectionSuffix).rodata = Vars.filter (fun d => d.readOnly) ∧
    (lowerGlobals Vars SectionSuffix).data = Vars.filter (fun d => !d.readOnly) ∧
    (∀ d, d ∈ (lowerGlobals Vars SectionSuffix).rodata ↔ d ∈ Vars ∧ d.readOnly = true) ∧
    (∀ d, d ∈ (lowerGlobals Vars SectionSuffix).data ↔ d ∈ Vars ∧ d.readOnly = false) ∧
    (∀ d, (lowerGlobals Vars SectionSuffix).rodata.count d =
        if d.readOnly then Vars.count d else 0) ∧
    (∀ d, (lowerGlobals Vars SectionSuffix).data.count d =
        if d.readOnly then 0 else Vars.count d) ∧
    (lowerGlobals Vars SectionSuffix).rodata.Sublist Vars ∧
    (lowerGlobals Vars SectionSuffix).data.Sublist Vars := by
  have h : lowerGlobals Vars SectionSuffix =
      { rodata := Vars.filter (fun d => d.readOnly),
        data := Vars.filter (fun d => !d.readOnly) } := by
    unfold lowerGlobals
    rw [Ice.TargetDataX8632.foldl_emitGlobal]
    simp
  rw [h]
  refine ⟨rfl, rfl, ?_, ?_, ?_, ?_, List.filter_sublist _, List.filter_sublist _⟩
  · intro d; simp [List.mem_filter]
  · intro d; simp [List.mem_filter]
  · intro d
    cases hd : d.readOnly
    · simp only [Bool.false_eq_true, if_false]
      exact List.count_eq_zero_of_not_mem (by simp [List.mem_filter, hd])
    · simp only [if_true]
      exact List.count_filter (by simp [hd])
  · intro d
    cases hd : d.readOnly
    · simp only [Bool.false_eq_true, if_false]
      exact List.count_filter (by simp [hd])
    · simp only [if_true]
      exact List.count_eq_zero_of_not_mem (by simp [List.mem_filter, hd])

/-- Witness for C3: on a read-only, a read-write and a second read-only
declaration the read-only section holds the first and the third, in that
order, and the read-write section the second. -/
theorem Ice.TargetDataX8632.lowerGlobals_splits_by_mutability_witness :
    (Ice.TargetDataX8632.lowerGlobals Ice.sampleGlobals Ice.sampleSuffix).rodata =
      [⟨"table", some [1, 2], 2, 1, true⟩, ⟨"masks", some [255], 1, 1, true⟩] ∧
    (Ice.TargetDataX8632.lowerGlobals Ice.sampleGlobals Ice.sampleSuffix).data =
      [⟨"counter", none, 4, 4, false⟩] :=
  ⟨(Ice.TargetDataX8632.lowerGlobals_splits_by_mutability Ice.sampleGlobals Ice.sampleSuffix).1.trans
      (by decide),
    (Ice.TargetDataX8632.lowerGlobals_splits_by_mutability Ice.sampleGlobals Ice.sampleSuffix).2.1.trans
      (by decide)⟩
